import Mathlib

/-!
Verification development for the `alts` worker repository.

The definitions below are a shallow embedding of the Python sources:

* `src/alts/worker/runners/base.py` — `BaseRunner` (distribution fields,
  `pkg_manager`, `_create_work_dir`, `_create_artifacts_dir`,
  `install_package`) and the `command_decorator` wrapper;
* `src/alts/shared/uploaders/pulp.py` — `PulpBaseUploader`
  (`check_if_artifact_exists`, `_send_file`, `_put_large_file`,
  `upload_single_file`, `upload`).

Python strings are embedded as `String`, Python integers as `Int`
(sizes also as `Int` where arithmetic can go negative, e.g. `size - 1`),
Python `None`-able values as `Option`, raised exceptions as
`Except`-errors carrying the exception class or message, and the
filesystem / external services as explicit state or oracle functions.
Python truthiness is modelled where the source branches on it
(`if not reference:` and `if package_version:` treat the empty string
as false; `self._work_dir` is either `None` or a `Path` object, and
`Path` objects are always truthy, so `not self._work_dir` is a
`None`-check).
-/

/-- Decidable equality for `Except`, used to evaluate embedded results. -/
instance instExceptDecEq {ε α : Type} [DecidableEq ε] [DecidableEq α] :
    DecidableEq (Except ε α)
  | Except.ok a, Except.ok b => decidable_of_iff (a = b) (by simp)
  | Except.ok _, Except.error _ => Decidable.isFalse (fun h => Except.noConfusion h)
  | Except.error _, Except.ok _ => Decidable.isFalse (fun h => Except.noConfusion h)
  | Except.error a, Except.error b => decidable_of_iff (a = b) (by simp)

/-- `charsPrefixOf s l`: the char list `s` is a leading segment of `l`. -/
def charsPrefixOf : List Char → List Char → Bool
  | [], _ => true
  | _ :: _, [] => false
  | a :: as, b :: bs => if a = b then charsPrefixOf as bs else false

/-- `charsContain sub l`: the char list `sub` occurs contiguously in `l`.
Embeds Python's substring test `sub in l`. -/
def charsContain : List Char → List Char → Bool
  | sub, [] => sub.isEmpty
  | sub, b :: bs => if charsPrefixOf sub (b :: bs) then true else charsContain sub bs

/-- Python `needle in haystack` on strings (substring containment). -/
def strIn (needle haystack : String) : Bool :=
  charsContain needle.data haystack.data

/-- Python `str.lower` restricted to ASCII letters (all literals used by the
runner are ASCII, where Python's Unicode lowering agrees with this map). -/
def pyCharLower (c : Char) : Char :=
  if 'A' ≤ c ∧ c ≤ 'Z' then Char.ofNat (c.toNat + 32) else c

/-- Lowercasing applied by `BaseRunner.__init__` to the distribution fields. -/
def pyLower (s : String) : String :=
  String.mk (s.data.map pyCharLower)

/-- Python `os.path.basename` for the forward-slash paths used here:
the part after the last `/`. -/
def os_path_basename (p : String) : String :=
  String.mk (p.data.foldl (fun acc c => if c = '/' then [] else acc ++ [c]) [])

/-! ## `BaseRunner` distribution fields and `pkg_manager`
(`src/alts/worker/runners/base.py`) -/

/-- `BaseRunner.RHEL_FLAVORS = ('fedora', 'centos', 'almalinux', 'cloudlinux')`. -/
def RHEL_FLAVORS : List String := ["fedora", "centos", "almalinux", "cloudlinux"]

/-- `BaseRunner.DEBIAN_FLAVORS = ('debian', 'ubuntu', 'raspbian')`. -/
def DEBIAN_FLAVORS : List String := ["debian", "ubuntu", "raspbian"]

/-- The distribution fields stored by `BaseRunner.__init__`:
`self._dist_name = dist_name.lower()`,
`self._dist_version = str(dist_version).lower()`. -/
structure DistFields where
  dist_name : String
  dist_version : String
deriving DecidableEq

/-- `BaseRunner.__init__` normalisation of the distribution descriptor
(the version is received already stringified, as Python's `str()` of the
argument). -/
def mkDistFields (dist_name dist_version_str : String) : DistFields :=
  { dist_name := pyLower dist_name, dist_version := pyLower dist_version_str }

/-- `BaseRunner.pkg_manager` (base.py lines 105–115).  Python's operator
precedence parses the first condition as
`dist_name == 'fedora' or (dist_name in RHEL_FLAVORS and '8' in dist_version)`. -/
def pkg_manager (dist_name dist_version : String) : Except String String :=
  if dist_name = "fedora" ∨ (dist_name ∈ RHEL_FLAVORS ∧ strIn "8" dist_version = true) then
    Except.ok "dnf"
  else if dist_name ∈ RHEL_FLAVORS then
    Except.ok "yum"
  else if dist_name ∈ DEBIAN_FLAVORS then
    Except.ok "apt-get"
  else
    Except.error ("Unknown distribution: " ++ dist_name)

/-! ## `BaseRunner.install_package` (base.py lines 254–274)

The wrapped body builds the fully qualified package spec and the
`ansible-playbook` argument list.  Python's `if package_version:` treats
both `None` and the empty string as "no version". -/

/-- `ANSIBLE_PLAYBOOK = 'playbook.yml'`. -/
def ANSIBLE_PLAYBOOK : String := "playbook.yml"

/-- `ANSIBLE_INVENTORY_FILE = 'hosts'`. -/
def ANSIBLE_INVENTORY_FILE : String := "hosts"

/-- The `full_pkg_name` local of `BaseRunner.install_package`:
`name-version` when the resolved manager is `yum`, `name=version`
otherwise, and the bare name when `package_version` is falsy
(`None` or `''`).  `pkg_manager` is only consulted (and can only raise)
when a truthy version is given, exactly as in the source. -/
def full_pkg_name (dist_name dist_version package_name : String)
    (package_version : Option String) : Except String String :=
  match package_version with
  | some ver =>
    if ver = "" then Except.ok package_name
    else
      match pkg_manager dist_name dist_version with
      | Except.ok pm =>
        if pm = "yum" then Except.ok (package_name ++ "-" ++ ver)
        else Except.ok (package_name ++ "=" ++ ver)
      | Except.error e => Except.error e
  | none => Except.ok package_name

/-- The `cmd_args` list passed to `ansible-playbook` by `install_package`,
with the package spec as the `pkg_name` extra variable. -/
def ansible_install_args (connection_type spec : String) : List String :=
  ["-c", connection_type, "-i", ANSIBLE_INVENTORY_FILE, ANSIBLE_PLAYBOOK,
   "-e", "pkg_name=" ++ spec, "-t", "install_package"]

/-- `BaseRunner.install_package` argument construction: the spec is built by
`full_pkg_name` and spliced into the `ansible-playbook` command line. -/
def install_package_args (dist_name dist_version connection_type package_name : String)
    (package_version : Option String) : Except String (List String) :=
  (full_pkg_name dist_name dist_version package_name package_version).map
    (fun spec => ansible_install_args connection_type spec)

/-! ## `command_decorator` (base.py lines 27–50)

The wrapper receives the runner's mutable state (its `_work_dir` value
and `_artifacts` dict) plus the filesystem, and the wrapped command as a
thunk; returning `StepOutcome.skipped` corresponds to the bare `return`
before the command runs, `StepOutcome.raised` to
`raise exception_class(error_message)`, and `StepOutcome.returned` to
`return exit_code, stdout, stderr`. -/

/-- Result triple of a `plumbum` command run, as returned by the wrapped
function. -/
structure CmdResult where
  exit_code : Int
  stdout : String
  stderr : String
deriving DecidableEq

/-- The `_artifacts` dict, keyed by artifact key. -/
abbrev Artifacts := List (String × CmdResult)

/-- Python dict assignment `self._artifacts[key] = record`. -/
def dictSet (m : Artifacts) (k : String) (v : CmdResult) : Artifacts :=
  (k, v) :: m.filter (fun p => p.1 ≠ k)

/-- Python dict lookup `self._artifacts[key]`. -/
def dictGet (m : Artifacts) (k : String) : Option CmdResult :=
  (m.find? (fun p => p.1 = k)).map (fun p => p.2)

/-- The runner state touched by the wrapper: `self._work_dir`
(`None` or a path — `Path` objects are always truthy in Python, so
`not self._work_dir` is exactly the `None` test) and `self._artifacts`. -/
structure RunnerCmdState where
  work_dir : Option String
  artifacts : Artifacts
deriving DecidableEq

/-- What a wrapped lifecycle step does, observed from outside. -/
inductive StepOutcome where
  | skipped
  | raised (exception_class : String)
  | returned (exit_code : Int) (stdout : String) (stderr : String)
deriving DecidableEq

/-- `command_decorator(exception_class, artifacts_key, error_message)`
applied to a step whose body produces `fn ()`.  `fs` is the set of paths
existing on disk (`os.path.exists`). -/
def command_decorator (exception_class artifacts_key : String)
    (fs : List String) (st : RunnerCmdState) (fn : Unit → CmdResult) :
    RunnerCmdState × StepOutcome :=
  match st.work_dir with
  | none => (st, StepOutcome.skipped)
  | some wd =>
    if wd ∈ fs then
      let r := fn ()
      let st' : RunnerCmdState :=
        { st with artifacts := dictSet st.artifacts artifacts_key r }
      if r.exit_code ≠ 0 then (st', StepOutcome.raised exception_class)
      else (st', StepOutcome.returned r.exit_code r.stdout r.stderr)
    else (st, StepOutcome.skipped)

/-! ## `PulpBaseUploader` (src/alts/shared/uploaders/pulp.py)

The repository server is an oracle: `repoResults sha` is the result list
of `artifacts_client.list(sha256=sha)` (each entry's `pulp_href`),
`uploadHref` the reference returned by `uploads_client.create`,
`createdResource` the first created resource of the completed commit
task, `fileSize`/`fileSha` the outcomes of `os.path.getsize`/`hash_file`,
and `chunkManifest` the ordered `filesize` column of the `fs_manifest.csv`
written by `Filesplit.split`.  Network side effects are recorded as an
event trace. -/

/-- One request against the uploads / artifacts resources. -/
inductive PulpEvent where
  | createUpload (size : Int)
  | updateRange (contentRange : String)
  | commit (sha256 : String)
deriving DecidableEq

/-- Oracle describing the file system and the Pulp server's responses. -/
structure PulpEnv where
  chunk_size : Int
  fileSize : String → Int
  fileSha : String → String
  repoResults : String → List String
  uploadHref : String → String
  createdResource : String → String
  chunkManifest : String → List Int

/-- The f-string `f'bytes {lower}-{upper}/{total}'`. -/
def rangeString (lower upper total : Int) : String :=
  "bytes " ++ toString lower ++ "-" ++ toString upper ++ "/" ++ toString total

/-- The byte ranges sent by the manifest walk in
`PulpBaseUploader._put_large_file` (pulp.py lines 150–171): starting from
`lower`, each chunk of size `s` is sent as
`(lower, lower + s - 1, total)` and the offset advances by `s`. -/
def put_large_file_ranges (total : Int) : Int → List Int → List (Int × Int × Int)
  | _, [] => []
  | lower, s :: rest =>
    (lower, lower + s - 1, total) :: put_large_file_ranges total (lower + s) rest

/-- `_put_large_file` as an event trace: one `update` per manifest row,
with the formatted `Content-Range` header. -/
def put_large_file_events (total : Int) (sizes : List Int) : List PulpEvent :=
  (put_large_file_ranges total 0 sizes).map
    (fun r => PulpEvent.updateRange (rangeString r.1 r.2.1 r.2.2))

/-- `PulpBaseUploader._send_file` (pulp.py lines 173–187): reserve an
upload sized to the file, send the bytes (chunked when the size exceeds
`chunk_size`, otherwise one request covering `bytes 0-{size-1}/{size}`),
then commit with the file's SHA-256.  Returns the artifact reference and
the request trace. -/
def send_file (env : PulpEnv) (path : String) : String × List PulpEvent :=
  let size := env.fileSize path
  let transfer :=
    if size > env.chunk_size then
      put_large_file_events size (env.chunkManifest path)
    else
      [PulpEvent.updateRange (rangeString 0 (size - 1) size)]
  (env.createdResource path,
   PulpEvent.createUpload size :: transfer ++ [PulpEvent.commit (env.fileSha path)])

/-- `PulpBaseUploader.check_if_artifact_exists` (pulp.py lines 189–193):
the first result's `pulp_href`, or nothing when the result list is
empty. -/
def check_if_artifact_exists (results : List String) : Option String :=
  match results with
  | [] => none
  | r :: _ => some r

/-- An upload record as returned by `upload_single_file`. -/
structure UploadRecord where
  name : String
  href : String
  type : String
deriving DecidableEq

/-- `PulpBaseUploader.upload_single_file` (pulp.py lines 232–256) with an
explicit type tag.  Python's `if not reference:` treats both `None` and
an empty-string reference as missing, so a full send happens in those
two cases. -/
def upload_single_file_t (env : PulpEnv) (filename type_ : String) :
    UploadRecord × List PulpEvent :=
  let file_sha256 := env.fileSha filename
  match check_if_artifact_exists (env.repoResults file_sha256) with
  | some r =>
    if r = "" then
      let sent := send_file env filename
      ({ name := os_path_basename filename, href := sent.1, type := type_ }, sent.2)
    else
      ({ name := os_path_basename filename, href := r, type := type_ }, [])
  | none =>
    let sent := send_file env filename
    ({ name := os_path_basename filename, href := sent.1, type := type_ }, sent.2)

/-- `upload_single_file` with the default type tag `'test_log'`. -/
def upload_single_file (env : PulpEnv) (filename : String) :
    UploadRecord × List PulpEvent :=
  upload_single_file_t env filename "test_log"

/-- A concrete oracle in which the existence check reports the reference
`""` for every digest. -/
def emptyHrefEnv : PulpEnv :=
  { chunk_size := 100
    fileSize := fun _ => 5
    fileSha := fun _ => "abc"
    repoResults := fun _ => [""]
    uploadHref := fun _ => "upl"
    createdResource := fun _ => "art1"
    chunkManifest := fun _ => [] }

/-- A concrete oracle whose repository already lists digest `"abc"`
under href `"/pulp/existing"`. -/
def dedupEnv : PulpEnv :=
  { chunk_size := 100
    fileSize := fun _ => 5
    fileSha := fun _ => "abc"
    repoResults := fun sha => if sha = "abc" then ["/pulp/existing", "/pulp/other"] else []
    uploadHref := fun _ => "upl"
    createdResource := fun _ => "art1"
    chunkManifest := fun _ => [] }

/-- Oracle for a 0-byte file unknown to the repository. -/
def emptyFileEnv : PulpEnv :=
  { chunk_size := 100
    fileSize := fun _ => 0
    fileSha := fun _ => "e3b0"
    repoResults := fun _ => []
    uploadHref := fun _ => "upl"
    createdResource := fun _ => "art0"
    chunkManifest := fun _ => [] }

/-! ## `PulpBaseUploader.upload` (pulp.py lines 195–230)

The pool of 4 workers completes the submitted single-file uploads in
some order; `as_completed` yields them in completion order, which is an
arbitrary permutation of the artifact list.  `f a` is the outcome of
`upload_single_file(a)` observed for artifact `a`: its upload record, or
the exception it raised. -/

/-- The record appended to `success_uploads` by a finished future,
if it succeeded. -/
def uploadOk (r : Except String UploadRecord) : Option UploadRecord :=
  match r with
  | Except.ok v => some v
  | Except.error _ => none

/-- Whether a finished future raised (its artifact then joins
`errored_uploads`). -/
def uploadFailed (r : Except String UploadRecord) : Bool :=
  match r with
  | Except.ok _ => false
  | Except.error _ => true

/-- The `for future in as_completed(futures)` loop: grow
`success_uploads` with each result and `errored_uploads` with each
artifact whose future raised. -/
def upload_loop (f : String → Except String UploadRecord) :
    List String → List UploadRecord → List String →
      List UploadRecord × List String
  | [], success_uploads, errored_uploads => (success_uploads, errored_uploads)
  | a :: rest, success_uploads, errored_uploads =>
    match f a with
    | Except.ok r => upload_loop f rest (success_uploads ++ [r]) errored_uploads
    | Except.error _ => upload_loop f rest success_uploads (errored_uploads ++ [a])

/-- `PulpBaseUploader.upload`: collect all outcomes, raise the aggregate
`UploadError` naming the errored uploads when any exist, otherwise
return the successful records. -/
def upload (f : String → Except String UploadRecord)
    (completion_order : List String) :
    Except (List String) (List UploadRecord) :=
  let collected := upload_loop f completion_order [] []
  if collected.2 = [] then Except.ok collected.1 else Except.error collected.2

/-- Concrete batch outcome oracle: `b.log` fails, others succeed. -/
def batchOutcome (a : String) : Except String UploadRecord :=
  if a = "b.log" then Except.error "TaskFailedError"
  else Except.ok { name := a, href := "/pulp/" ++ a, type := "test_log" }

/-! ## Working-directory creation (base.py lines 142–154)

The filesystem is the set of existing paths; `tempfile.mkdtemp` draws a
fresh name `TEMPFILE_PREFIX + suffix(counter)` and adds it to the
filesystem, bumping the counter — the counter value is the number of
temporary directories created so far. -/

/-- `BaseRunner.TEMPFILE_PREFIX = 'base_test_runner_'`. -/
def TEMPFILE_PREFIX_STR : String := "base_test_runner_"

/-- Filesystem plus the count of `mkdtemp` calls performed. -/
structure SysState where
  fs : List String
  tempCounter : Nat
deriving DecidableEq

/-- `tempfile.mkdtemp(prefix=TEMPFILE_PREFIX)`: a fresh directory named
by the suffix oracle, created on disk. -/
def mkdtemp (suffix : Nat → String) (sys : SysState) : String × SysState :=
  let name := TEMPFILE_PREFIX_STR ++ suffix sys.tempCounter
  (name, { fs := name :: sys.fs, tempCounter := sys.tempCounter + 1 })

/-- `BaseRunner._create_work_dir` (base.py lines 142–145): make a fresh
temporary directory when `self._work_dir` is unset or gone from disk,
else keep the recorded one; returns the path together with the updated
`_work_dir` field and filesystem. -/
def create_work_dir (suffix : Nat → String) (wd : Option String)
    (sys : SysState) : String × Option String × SysState :=
  match wd with
  | none =>
    let created := mkdtemp suffix sys
    (created.1, some created.1, created.2)
  | some p =>
    if p ∈ sys.fs then (p, some p, sys)
    else
      let created := mkdtemp suffix sys
      (created.1, some created.1, created.2)

/-- `BaseRunner._create_artifacts_dir` (base.py lines 148–154): create
the work dir only when `self._work_dir` is unset (`None`); then
`os.mkdir(self._work_dir / 'artifacts')` unless that path already
exists.  `os.mkdir` raises `FileNotFoundError` when its parent directory
does not exist on disk. -/
def create_artifacts_dir (suffix : Nat → String) (wd : Option String)
    (sys : SysState) : Except String (String × Option String × SysState) :=
  let stepped :=
    match wd with
    | none =>
      let created := create_work_dir suffix none sys
      (created.2.1, created.2.2)
    | some p => (some p, sys)
  match stepped.1 with
  | none => Except.error "unreachable"
  | some p =>
    let path := p ++ "/artifacts"
    if path ∈ stepped.2.fs then Except.ok (path, some p, stepped.2)
    else if p ∈ stepped.2.fs then
      Except.ok (path, some p,
        { fs := path :: stepped.2.fs, tempCounter := stepped.2.tempCounter })
    else Except.error "FileNotFoundError"

/-! ## Theorems -/

theorem rhel_not_debian (n : String) (h : n ∈ RHEL_FLAVORS) : n ∉ DEBIAN_FLAVORS := by
  simp only [RHEL_FLAVORS, List.mem_cons, List.not_mem_nil, or_false] at h
  rcases h with h | h | h | h <;> subst h <;> decide

theorem debian_not_rhel (n : String) (h : n ∈ DEBIAN_FLAVORS) : n ∉ RHEL_FLAVORS := by
  intro hr
  exact rhel_not_debian n hr h

theorem fedora_mem_rhel : "fedora" ∈ RHEL_FLAVORS := by decide

theorem pkg_manager_dnf (n v : String) :
    pkg_manager n v = Except.ok "dnf" ↔
      (n = "fedora" ∨ (n ∈ RHEL_FLAVORS ∧ strIn "8" v = true)) := by
  unfold pkg_manager
  by_cases h1 : n = "fedora" ∨ (n ∈ RHEL_FLAVORS ∧ strIn "8" v = true)
  · rw [if_pos h1]
    exact iff_of_true rfl h1
  · rw [if_neg h1]
    apply iff_of_false _ h1
    by_cases h2 : n ∈ RHEL_FLAVORS
    · rw [if_pos h2]; decide
    · rw [if_neg h2]
      by_cases h3 : n ∈ DEBIAN_FLAVORS
      · rw [if_pos h3]; decide
      · rw [if_neg h3]; exact fun h => Except.noConfusion h

theorem pkg_manager_yum (n v : String) :
    pkg_manager n v = Except.ok "yum" ↔
      (n ∈ RHEL_FLAVORS ∧ n ≠ "fedora" ∧ strIn "8" v = false) := by
  unfold pkg_manager
  by_cases h1 : n = "fedora" ∨ (n ∈ RHEL_FLAVORS ∧ strIn "8" v = true)
  · rw [if_pos h1]
    apply iff_of_false (by decide)
    rintro ⟨_, hnf, hv⟩
    rcases h1 with h1 | ⟨_, h8⟩
    · exact hnf h1
    · rw [h8] at hv; exact Bool.noConfusion hv
  · rw [if_neg h1]
    by_cases h2 : n ∈ RHEL_FLAVORS
    · rw [if_pos h2]
      apply iff_of_true rfl
      push_neg at h1
      refine ⟨h2, h1.1, ?_⟩
      cases hs : strIn "8" v
      · rfl
      · exact absurd hs (h1.2 h2)
    · rw [if_neg h2]
      apply iff_of_false _ (fun hc => h2 hc.1)
      by_cases h3 : n ∈ DEBIAN_FLAVORS
      · rw [if_pos h3]; decide
      · rw [if_neg h3]; exact fun h => Except.noConfusion h

theorem pkg_manager_apt (n v : String) :
    pkg_manager n v = Except.ok "apt-get" ↔ n ∈ DEBIAN_FLAVORS := by
  unfold pkg_manager
  by_cases h1 : n = "fedora" ∨ (n ∈ RHEL_FLAVORS ∧ strIn "8" v = true)
  · rw [if_pos h1]
    apply iff_of_false (by decide)
    intro hd
    rcases h1 with h1 | ⟨hr, _⟩
    · subst h1; exact absurd hd (by decide)
    · exact rhel_not_debian n hr hd
  · rw [if_neg h1]
    by_cases h2 : n ∈ RHEL_FLAVORS
    · rw [if_pos h2]
      exact iff_of_false (by decide) (fun hd => rhel_not_debian n h2 hd)
    · rw [if_neg h2]
      by_cases h3 : n ∈ DEBIAN_FLAVORS
      · rw [if_pos h3]; exact iff_of_true rfl h3
      · rw [if_neg h3]
        exact iff_of_false (fun h => Except.noConfusion h) h3

theorem pkg_manager_err (n v : String) :
    pkg_manager n v = Except.error ("Unknown distribution: " ++ n) ↔
      (n ∉ RHEL_FLAVORS ∧ n ∉ DEBIAN_FLAVORS) := by
  unfold pkg_manager
  by_cases h1 : n = "fedora" ∨ (n ∈ RHEL_FLAVORS ∧ strIn "8" v = true)
  · rw [if_pos h1]
    apply iff_of_false (fun h => Except.noConfusion h)
    rintro ⟨hr, _⟩
    rcases h1 with h1 | ⟨h1, _⟩
    · subst h1; exact hr fedora_mem_rhel
    · exact hr h1
  · rw [if_neg h1]
    by_cases h2 : n ∈ RHEL_FLAVORS
    · rw [if_pos h2]
      exact iff_of_false (fun h => Except.noConfusion h) (fun hc => hc.1 h2)
    · rw [if_neg h2]
      by_cases h3 : n ∈ DEBIAN_FLAVORS
      · rw [if_pos h3]
        exact iff_of_false (fun h => Except.noConfusion h) (fun hc => hc.2 h3)
      · rw [if_neg h3]
        exact iff_of_true rfl ⟨h2, h3⟩

/-- C1: package-manager resolution is deterministic and exhaustive —
`dnf` exactly for the name `fedora` (any version) or a RHEL-family name
whose version string contains `8`; `yum` exactly for the remaining
RHEL-family names; `apt-get` exactly for debian-family names; and an
invalid-input (`Unknown distribution`) error exactly for every other
name. -/
theorem pkg_manager_resolution (n v : String) :
    (pkg_manager n v = Except.ok "dnf" ↔
      (n = "fedora" ∨ (n ∈ RHEL_FLAVORS ∧ strIn "8" v = true)))
  ∧ (pkg_manager n v = Except.ok "yum" ↔
      (n ∈ RHEL_FLAVORS ∧ n ≠ "fedora" ∧ strIn "8" v = false))
  ∧ (pkg_manager n v = Except.ok "apt-get" ↔ n ∈ DEBIAN_FLAVORS)
  ∧ (pkg_manager n v = Except.error ("Unknown distribution: " ++ n) ↔
      (n ∉ RHEL_FLAVORS ∧ n ∉ DEBIAN_FLAVORS)) :=
  ⟨pkg_manager_dnf n v, pkg_manager_yum n v, pkg_manager_apt n v, pkg_manager_err n v⟩

example : pkg_manager "centos" "7" = Except.ok "yum" := by decide

example : pkg_manager "centos" "8" = Except.ok "dnf" := by decide

example : pkg_manager "ubuntu" "20.04" = Except.ok "apt-get" := by decide

example : pkg_manager "fedora" "33" = Except.ok "dnf" := by decide

example : pkg_manager "almalinux" "8.3" = Except.ok "dnf" := by decide

example : (mkDistFields "CentOS" "8").dist_name = "centos" := by decide

/-- C2 (counterexample): the claim quantifies over every call with a
supplied version, but Python's `if package_version:` treats a supplied
empty-string version as "no version": on a `yum` runner (`centos` 7),
`install_package('pkg', '')` builds the bare spec `pkg`, not `pkg-`. -/
theorem install_package_empty_version_cex :
    pkg_manager "centos" "7" = Except.ok "yum"
  ∧ full_pkg_name "centos" "7" "pkg" (some "") = Except.ok "pkg"
  ∧ full_pkg_name "centos" "7" "pkg" (some "") ≠ Except.ok ("pkg" ++ "-" ++ "") := by
  decide

/-- C2 (amended): for every call with a non-empty supplied version, a
runner whose package manager resolves to `yum` builds `name-version` and
every other resolved manager builds `name=version`; with no version (or
Python-falsy empty version) the bare name is used.  In each case the spec
is passed to the configuration-management tool as the `pkg_name` extra
variable. -/
theorem install_package_spec (n v conn pname ver pm : String)
    (hpm : pkg_manager n v = Except.ok pm) (hver : ver ≠ "") :
    (pm = "yum" →
      install_package_args n v conn pname (some ver) =
        Except.ok (ansible_install_args conn (pname ++ "-" ++ ver)))
  ∧ (pm ≠ "yum" →
      install_package_args n v conn pname (some ver) =
        Except.ok (ansible_install_args conn (pname ++ "=" ++ ver)))
  ∧ install_package_args n v conn pname none =
      Except.ok (ansible_install_args conn pname)
  ∧ install_package_args n v conn pname (some "") =
      Except.ok (ansible_install_args conn pname) := by
  refine ⟨?_, ?_, rfl, rfl⟩
  · intro hyum
    subst hyum
    simp [install_package_args, full_pkg_name, hpm, hver, Except.map]
  · intro hother
    simp [install_package_args, full_pkg_name, hpm, hver, hother, Except.map]

/-- C2 witness: concrete calls on a `yum` runner (`centos` 7) and a
`dnf` runner (`centos` 8). -/
theorem install_package_spec_witness :
    install_package_args "centos" "7" "docker" "pkg" (some "1.0") =
      Except.ok (ansible_install_args "docker" "pkg-1.0")
  ∧ install_package_args "centos" "8" "docker" "pkg" (some "1.0") =
      Except.ok (ansible_install_args "docker" "pkg=1.0") := by
  constructor
  · have h := (install_package_spec "centos" "7" "docker" "pkg" "1.0" "yum"
      (by decide) (by decide)).1 rfl
    rw [h]; decide
  · have h := (install_package_spec "centos" "8" "docker" "pkg" "1.0" "dnf"
      (by decide) (by decide)).2.1 (by decide)
    rw [h]; decide

/-- C3: when the working directory exists, the wrapper always stores the
`{exit_code, stdout, stderr}` record under the step's artifact key; a
non-zero exit code then raises the step's designated failure kind (with
the record already stored in the resulting state), and a zero exit code
returns the `(exit_code, stdout, stderr)` tuple without raising. -/
theorem command_decorator_records_and_raises
    (ec key : String) (fs : List String) (st : RunnerCmdState)
    (fn : Unit → CmdResult) (wd : String)
    (hwd : st.work_dir = some wd) (hex : wd ∈ fs) :
    (command_decorator ec key fs st fn).1 =
      { st with artifacts := dictSet st.artifacts key (fn ()) }
  ∧ dictGet (command_decorator ec key fs st fn).1.artifacts key = some (fn ())
  ∧ ((fn ()).exit_code ≠ 0 →
      (command_decorator ec key fs st fn).2 = StepOutcome.raised ec)
  ∧ ((fn ()).exit_code = 0 →
      (command_decorator ec key fs st fn).2 =
        StepOutcome.returned (fn ()).exit_code (fn ()).stdout (fn ()).stderr) := by
  have hget : dictGet (dictSet st.artifacts key (fn ())) key = some (fn ()) := by
    simp [dictGet, dictSet, List.find?]
  by_cases hc : (fn ()).exit_code ≠ 0
  · refine ⟨?_, ?_, fun _ => ?_, fun h0 => absurd h0 hc⟩ <;>
      simp [command_decorator, hwd, hex, hc, hget]
  · refine ⟨?_, ?_, fun hne => absurd hne hc, fun _ => ?_⟩ <;>
      simp [command_decorator, hwd, hex, hc, hget]

/-- C3 witness: a failing step (exit code 7) on an existing working
directory stores the record and raises; the same step with exit code 0
returns the tuple. -/
theorem command_decorator_records_and_raises_witness :
    (command_decorator "InstallPackageError" "install_package" ["/w"]
        { work_dir := some "/w", artifacts := [] }
        (fun _ => { exit_code := 7, stdout := "out", stderr := "err" })).2 =
      StepOutcome.raised "InstallPackageError"
  ∧ dictGet (command_decorator "InstallPackageError" "install_package" ["/w"]
        { work_dir := some "/w", artifacts := [] }
        (fun _ => { exit_code := 7, stdout := "out", stderr := "err" })).1.artifacts
        "install_package" =
      some { exit_code := 7, stdout := "out", stderr := "err" } := by
  have h := command_decorator_records_and_raises "InstallPackageError"
    "install_package" ["/w"] { work_dir := some "/w", artifacts := [] }
    (fun _ => { exit_code := 7, stdout := "out", stderr := "err" }) "/w"
    rfl (by decide)
  exact ⟨h.2.2.1 (by decide), h.2.1⟩

/-- C4: when the working directory is unset (`None`) or no longer exists
on disk, a wrapped step is a true no-op for every wrapped command `fn`:
the state (including the artifact map) is unchanged and the outcome is a
bare return — no exception, no result tuple, and (being independent of
`fn`) no execution of the wrapped command. -/
theorem command_decorator_noop
    (ec key : String) (fs : List String) (st : RunnerCmdState)
    (fn : Unit → CmdResult)
    (h : st.work_dir = none ∨ ∃ wd, st.work_dir = some wd ∧ wd ∉ fs) :
    command_decorator ec key fs st fn = (st, StepOutcome.skipped) := by
  rcases h with h | ⟨wd, hwd, hnex⟩
  · simp [command_decorator, h]
  · simp [command_decorator, hwd, hnex]

/-- C4 witness: a fresh runner (no working directory) skips the step and
leaves the artifact map empty; a runner whose recorded directory was
removed from disk does the same. -/
theorem command_decorator_noop_witness :
    command_decorator "ProvisionError" "initial_provision" ["/other"]
        { work_dir := none, artifacts := [] }
        (fun _ => { exit_code := 1, stdout := "", stderr := "boom" }) =
      ({ work_dir := none, artifacts := [] }, StepOutcome.skipped)
  ∧ command_decorator "ProvisionError" "initial_provision" ["/other"]
        { work_dir := some "/gone", artifacts := [] }
        (fun _ => { exit_code := 1, stdout := "", stderr := "boom" }) =
      ({ work_dir := some "/gone", artifacts := [] }, StepOutcome.skipped) :=
  ⟨command_decorator_noop "ProvisionError" "initial_provision" ["/other"]
      { work_dir := none, artifacts := [] }
      (fun _ => { exit_code := 1, stdout := "", stderr := "boom" })
      (Or.inl rfl),
   command_decorator_noop "ProvisionError" "initial_provision" ["/other"]
      { work_dir := some "/gone", artifacts := [] }
      (fun _ => { exit_code := 1, stdout := "", stderr := "boom" })
      (Or.inr ⟨"/gone", rfl, by decide⟩)⟩

/-- C5 (counterexample): the claim quantifies over every file whose
digest the existence check reports, but when the reported first
reference is the empty string Python's `if not reference:` is true and
the call does **not** short-circuit: bytes are sent (non-empty request
trace, starting with a reserve) and the returned href is the newly
created resource rather than the first existing reference. -/
theorem upload_single_file_empty_href_cex :
    check_if_artifact_exists (emptyHrefEnv.repoResults (emptyHrefEnv.fileSha "d/f.log")) =
      some ""
  ∧ (upload_single_file emptyHrefEnv "d/f.log").2 ≠ []
  ∧ (upload_single_file emptyHrefEnv "d/f.log").1.href = "art1"
  ∧ (upload_single_file emptyHrefEnv "d/f.log").1.href ≠ "" := by
  decide

/-- C5 (amended): for every file whose digest the existence check
reports with a non-empty first reference — in particular on a second
call with identical content after the repository has listed it — the
call short-circuits: no upload is reserved, no bytes are sent, no commit
is requested (empty request trace), and the returned record carries that
first existing reference, the file's base name, and the type tag, which
defaults to `test_log`. -/
theorem upload_single_file_idempotent (env : PulpEnv) (f t r : String)
    (h : check_if_artifact_exists (env.repoResults (env.fileSha f)) = some r)
    (hr : r ≠ "") :
    upload_single_file_t env f t =
      ({ name := os_path_basename f, href := r, type := t }, [])
  ∧ upload_single_file env f =
      ({ name := os_path_basename f, href := r, type := "test_log" }, []) := by
  constructor
  · simp [upload_single_file_t, h, hr]
  · simp [upload_single_file, upload_single_file_t, h, hr]

/-- C5 witness: with digest `"abc"` already listed, uploading
`logs/x.log` returns the first existing reference under the default
`test_log` tag with an empty request trace. -/
theorem upload_single_file_idempotent_witness :
    upload_single_file dedupEnv "logs/x.log" =
      ({ name := "x.log", href := "/pulp/existing", type := "test_log" }, []) := by
  have h := (upload_single_file_idempotent dedupEnv "logs/x.log" "test_log"
    "/pulp/existing" (by decide) (by decide)).2
  rw [h]
  decide

theorem put_large_file_ranges_length (total lower : Int) (sizes : List Int) :
    (put_large_file_ranges total lower sizes).length = sizes.length := by
  induction sizes generalizing lower with
  | nil => rfl
  | cons s rest ih => simp [put_large_file_ranges, ih]

theorem put_large_file_ranges_getElem (total lower : Int) (sizes : List Int)
    (i : Nat) (h : i < sizes.length) :
    (put_large_file_ranges total lower sizes)[i]? =
      some (lower + (sizes.take i).sum, lower + (sizes.take (i + 1)).sum - 1, total) := by
  induction sizes generalizing lower i with
  | nil => simp at h
  | cons s rest ih =>
    cases i with
    | zero => simp [put_large_file_ranges, List.take_succ_cons]
    | succ j =>
      have hj : j < rest.length := by simpa using h
      have := ih (lower + s) j hj
      simp only [put_large_file_ranges, List.getElem?_cons_succ, this,
        List.take_succ_cons, List.sum_cons]
      congr 1
      rw [Prod.ext_iff, Prod.ext_iff]
      refine ⟨by ring, by ring, rfl⟩

theorem put_large_file_ranges_total (total lower : Int) (sizes : List Int) :
    ∀ r ∈ put_large_file_ranges total lower sizes, r.2.2 = total := by
  induction sizes generalizing lower with
  | nil => intro r hr; simp [put_large_file_ranges] at hr
  | cons s rest ih =>
    intro r hr
    simp only [put_large_file_ranges, List.mem_cons] at hr
    rcases hr with hr | hr
    · rw [hr]
    · exact ih (lower + s) r hr

/-- C6: walking a manifest with chunk sizes `s1, …, sn` summing to
`total`, the ranges sent are exactly the prefix-sum windows — range `i`
is `(s1+⋯+si) .. (s1+⋯+s(i+1)) - 1`, each tagged with the same `total` —
the first starts at 0, the last ends at `total - 1`, and each range
begins exactly one byte after its predecessor ends (no gaps, no
overlaps). -/
theorem put_large_file_ranges_contiguous (sizes : List Int) (total : Int)
    (hsum : sizes.sum = total) (hne : sizes ≠ []) :
    (put_large_file_ranges total 0 sizes).length = sizes.length
  ∧ (∀ i, i < sizes.length →
      (put_large_file_ranges total 0 sizes)[i]? =
        some ((sizes.take i).sum, (sizes.take (i + 1)).sum - 1, total))
  ∧ ((put_large_file_ranges total 0 sizes).head?).map (fun r => r.1) = some 0
  ∧ ((put_large_file_ranges total 0 sizes).getLast?).map (fun r => r.2.1) =
      some (total - 1)
  ∧ (∀ r ∈ put_large_file_ranges total 0 sizes, r.2.2 = total)
  ∧ (∀ i lo hi lo' hi', i + 1 < sizes.length →
      (put_large_file_ranges total 0 sizes)[i]? = some (lo, hi, total) →
      (put_large_file_ranges total 0 sizes)[i + 1]? = some (lo', hi', total) →
      lo' = hi + 1) := by
  have hget : ∀ i, i < sizes.length →
      (put_large_file_ranges total 0 sizes)[i]? =
        some ((sizes.take i).sum, (sizes.take (i + 1)).sum - 1, total) := by
    intro i h
    have := put_large_file_ranges_getElem total 0 sizes i h
    simpa using this
  have hlen := put_large_file_ranges_length total 0 sizes
  refine ⟨hlen, hget, ?_, ?_, put_large_file_ranges_total total 0 sizes, ?_⟩
  · rcases sizes with _ | ⟨s, rest⟩
    · exact absurd rfl hne
    · rfl
  · have hpos : 0 < sizes.length := by
      rcases sizes with _ | ⟨s, rest⟩
      · exact absurd rfl hne
      · simp
    have hlast := List.getLast?_eq_getElem? (put_large_file_ranges total 0 sizes)
    rw [hlast, hlen]
    have hidx : sizes.length - 1 < sizes.length := Nat.sub_lt hpos Nat.one_pos
    rw [hget (sizes.length - 1) hidx]
    have htake : sizes.length - 1 + 1 = sizes.length := Nat.succ_pred_eq_of_pos hpos
    rw [htake, List.take_length, hsum]
    rfl
  · intro i lo hi lo' hi' hlt h1 h2
    have hi1 : i < sizes.length := Nat.lt_of_succ_lt hlt
    rw [hget i hi1] at h1
    rw [hget (i + 1) hlt] at h2
    have e1 : hi = (sizes.take (i + 1)).sum - 1 := by
      have := Option.some.inj h1
      exact (congrArg (fun p => p.2.1) this).symm
    have e2 : lo' = (sizes.take (i + 1)).sum := by
      have := Option.some.inj h2
      exact (congrArg (fun p => p.1) this).symm
    rw [e1, e2]
    ring

/-- C6 witness: chunks of sizes 3, 4, 5 of a 12-byte file produce the
ranges `0–2`, `3–6`, `7–11`, each tagged `/12`. -/
theorem put_large_file_ranges_contiguous_witness :
    ([3, 4, 5] : List Int).sum = 12
  ∧ (put_large_file_ranges 12 0 [3, 4, 5])[1]? = some (3, 6, 12)
  ∧ ((put_large_file_ranges 12 0 [3, 4, 5]).getLast?).map (fun r => r.2.1) =
      some (11 : Int) := by
  refine ⟨by decide, ?_, ?_⟩
  · have h := (put_large_file_ranges_contiguous [3, 4, 5] 12 (by decide)
      (by decide)).2.1 1 (by decide)
    rw [h]; decide
  · have h := (put_large_file_ranges_contiguous [3, 4, 5] 12 (by decide)
      (by decide)).2.2.2.1
    rw [h]; decide

/-- C10: for a 0-byte file whose digest the repository does not list,
the full-send path takes the single-request branch (0 never exceeds a
non-negative chunk-size threshold) and sends the content-range string
`bytes 0--1/0` — lower bound 0, upper bound `-1` computed as `size - 1`
with no guard for empty files — before requesting the commit. -/
theorem send_file_empty_file (env : PulpEnv) (f : String)
    (hmiss : env.repoResults (env.fileSha f) = [])
    (hsize : env.fileSize f = 0)
    (hchunk : 0 ≤ env.chunk_size) :
    rangeString 0 (0 - 1) 0 = "bytes 0--1/0"
  ∧ send_file env f =
      (env.createdResource f,
       [PulpEvent.createUpload 0, PulpEvent.updateRange "bytes 0--1/0",
        PulpEvent.commit (env.fileSha f)])
  ∧ upload_single_file env f =
      ({ name := os_path_basename f, href := env.createdResource f,
         type := "test_log" },
       [PulpEvent.createUpload 0, PulpEvent.updateRange "bytes 0--1/0",
        PulpEvent.commit (env.fileSha f)]) := by
  have hfmt : rangeString 0 (0 - 1) 0 = "bytes 0--1/0" := by decide
  have hbranch : ¬((0 : Int) > env.chunk_size) := not_lt.mpr hchunk
  have hsend : send_file env f =
      (env.createdResource f,
       [PulpEvent.createUpload 0, PulpEvent.updateRange "bytes 0--1/0",
        PulpEvent.commit (env.fileSha f)]) := by
    simp only [send_file, hsize]
    rw [if_neg hbranch, hfmt]
    rfl
  refine ⟨hfmt, hsend, ?_⟩
  simp only [upload_single_file, upload_single_file_t, hmiss,
    check_if_artifact_exists, hsend]

/-- C10 witness: a concrete 0-byte file is sent in one request with the
content-range `bytes 0--1/0` and then committed. -/
theorem send_file_empty_file_witness :
    send_file emptyFileEnv "empty.log" =
      ("art0",
       [PulpEvent.createUpload 0, PulpEvent.updateRange "bytes 0--1/0",
        PulpEvent.commit "e3b0"]) := by
  have h := (send_file_empty_file emptyFileEnv "empty.log" rfl rfl (by decide)).2.1
  rw [h]
  rfl

theorem upload_loop_spec (f : String → Except String UploadRecord)
    (order : List String) : ∀ s e,
    upload_loop f order s e =
      (s ++ order.filterMap (fun a => uploadOk (f a)),
       e ++ order.filter (fun a => uploadFailed (f a))) := by
  induction order with
  | nil => intro s e; simp [upload_loop]
  | cons a rest ih =>
    intro s e
    cases hfa : f a with
    | ok r =>
      simp [upload_loop, hfa, ih, uploadOk, uploadFailed,
        List.filterMap_cons, List.filter_cons]
    | error msg =>
      simp [upload_loop, hfa, ih, uploadOk, uploadFailed,
        List.filterMap_cons, List.filter_cons]

theorem upload_counts (f : String → Except String UploadRecord)
    (order : List String) :
    (order.filterMap (fun a => uploadOk (f a))).length +
      (order.filter (fun a => uploadFailed (f a))).length = order.length := by
  induction order with
  | nil => rfl
  | cons a rest ih =>
    cases hfa : f a with
    | ok r =>
      have h1 : uploadOk (f a) = some r := by rw [hfa]; rfl
      have h2 : uploadFailed (f a) = false := by rw [hfa]; rfl
      simp only [List.filterMap_cons, List.filter_cons, h1, h2,
        Bool.false_eq_true, if_false, List.length_cons]
      omega
    | error msg =>
      have h1 : uploadOk (f a) = none := by rw [hfa]; rfl
      have h2 : uploadFailed (f a) = true := by rw [hfa]; rfl
      simp only [List.filterMap_cons, List.filter_cons, h1, h2, if_true,
        List.length_cons]
      omega

/-- C7: for any completion order (any permutation of the artifact list),
every artifact is attempted (success and failure counts add up to the
whole batch); the successful uploads performed — and never rolled back —
are exactly the records of the succeeding files; when no file fails the
call returns exactly the successful records; and when some file fails it
raises the aggregate error naming exactly the failing files. -/
theorem upload_batch (f : String → Except String UploadRecord)
    (arts order : List String) (hperm : order.Perm arts) :
    (upload_loop f order [] []).1.length +
        (upload_loop f order [] []).2.length = arts.length
  ∧ (upload_loop f order [] []).1.Perm
      (arts.filterMap (fun a => uploadOk (f a)))
  ∧ (arts.filter (fun a => uploadFailed (f a)) = [] →
      upload f order =
        Except.ok (order.filterMap (fun a => uploadOk (f a))))
  ∧ (arts.filter (fun a => uploadFailed (f a)) ≠ [] →
      upload f order =
          Except.error (order.filter (fun a => uploadFailed (f a)))
        ∧ (order.filter (fun a => uploadFailed (f a))).Perm
            (arts.filter (fun a => uploadFailed (f a)))) := by
  have hloop := upload_loop_spec f order [] []
  have hfperm : (order.filter (fun a => uploadFailed (f a))).Perm
      (arts.filter (fun a => uploadFailed (f a))) :=
    hperm.filter _
  refine ⟨?_, ?_, ?_, ?_⟩
  · rw [hloop]
    simp only [List.nil_append]
    rw [upload_counts]
    exact hperm.length_eq
  · rw [hloop]
    simp only [List.nil_append]
    exact hperm.filterMap _
  · intro hnone
    have hordnil : order.filter (fun a => uploadFailed (f a)) = [] := by
      have := hfperm
      rw [hnone] at this
      exact this.eq_nil
    unfold upload
    rw [hloop]
    simp [hordnil]
  · intro hsome
    have hordne : order.filter (fun a => uploadFailed (f a)) ≠ [] := by
      intro hnil
      exact hsome (((hnil ▸ hfperm).symm).eq_nil)
    constructor
    · unfold upload
      rw [hloop]
      simp [hordne]
    · exact hfperm

/-- C7 witness: with artifacts `a.log`, `b.log`, `c.log` completing in
the order `c, b, a`, the batch raises the aggregate error naming exactly
`b.log`, and the committed successes are the records of `a.log` and
`c.log`. -/
theorem upload_batch_witness :
    upload batchOutcome ["c.log", "b.log", "a.log"] = Except.error ["b.log"]
  ∧ (upload_loop batchOutcome ["c.log", "b.log", "a.log"] [] []).1.Perm
      (["a.log", "b.log", "c.log"].filterMap (fun a => uploadOk (batchOutcome a))) := by
  have h := upload_batch batchOutcome ["a.log", "b.log", "c.log"]
    ["c.log", "b.log", "a.log"] (by decide)
  have hfail : (["a.log", "b.log", "c.log"].filter
      (fun a => uploadFailed (batchOutcome a))) ≠ [] := by decide
  refine ⟨?_, h.2.1⟩
  have := (h.2.2.2 hfail).1
  rw [this]
  decide

/-- C8: starting from a fresh runner (`_work_dir = None`), calling
`_create_work_dir` twice while the directory made by the first call
still exists returns the same path both times, leaves the state of the
second call identical to the first, and creates exactly one temporary
directory, carrying the `base_test_runner_` prefix. -/
theorem create_work_dir_idempotent (suffix : Nat → String) (sys : SysState) :
    (create_work_dir suffix
        (create_work_dir suffix none sys).2.1
        (create_work_dir suffix none sys).2.2).1 =
      (create_work_dir suffix none sys).1
  ∧ (create_work_dir suffix
        (create_work_dir suffix none sys).2.1
        (create_work_dir suffix none sys).2.2) =
      create_work_dir suffix none sys
  ∧ (create_work_dir suffix none sys).2.2.tempCounter = sys.tempCounter + 1
  ∧ (create_work_dir suffix none sys).2.2.fs =
      (create_work_dir suffix none sys).1 :: sys.fs
  ∧ (∃ rest, (create_work_dir suffix none sys).1 =
      TEMPFILE_PREFIX_STR ++ rest) := by
  have hname : (create_work_dir suffix none sys).1 =
      TEMPFILE_PREFIX_STR ++ suffix sys.tempCounter := rfl
  have hsecond : (create_work_dir suffix
      (create_work_dir suffix none sys).2.1
      (create_work_dir suffix none sys).2.2) =
        create_work_dir suffix none sys := by
    show create_work_dir suffix
        (some (TEMPFILE_PREFIX_STR ++ suffix sys.tempCounter))
        { fs := (TEMPFILE_PREFIX_STR ++ suffix sys.tempCounter) :: sys.fs,
          tempCounter := sys.tempCounter + 1 } = _
    simp only [create_work_dir, mkdtemp]
    rw [if_pos (List.mem_cons_self _ _)]
  exact ⟨by rw [hsecond], hsecond, rfl, rfl, ⟨suffix sys.tempCounter, hname⟩⟩

/-- C9 (counterexample): the claim includes the case of a recorded
working-directory path that no longer exists on disk, asserting the
working directory is then recreated first; but `_create_artifacts_dir`
only checks `if not self._work_dir:`, so with `_work_dir = "w"` recorded
and absent from disk no directory is created — `os.mkdir` raises
`FileNotFoundError` instead of the call nesting `artifacts` under a
fresh working directory. -/
theorem create_artifacts_dir_stale_cex :
    create_artifacts_dir (fun n => toString n) (some "w")
        { fs := [], tempCounter := 0 } =
      Except.error "FileNotFoundError" := by
  decide

/-- C9 (amended): on every successful call the returned path is exactly
the fixed `artifacts` subpath of the runner's current working directory;
when no working directory has been recorded yet (`_work_dir = None`) the
working directory is created first; but a previously recorded
working-directory path is reused as-is even when it no longer exists on
disk — in that case the artifacts `mkdir` fails rather than recreating
the working directory. -/
theorem create_artifacts_dir_spec (suffix : Nat → String) (sys : SysState) :
    (∀ (wd : Option String) (r : String × Option String × SysState),
      create_artifacts_dir suffix wd sys = Except.ok r →
      r.2.1 ≠ none ∧ r.1 = r.2.1.getD "" ++ "/artifacts")
  ∧ (∃ sys', create_artifacts_dir suffix none sys =
        Except.ok ((TEMPFILE_PREFIX_STR ++ suffix sys.tempCounter) ++ "/artifacts",
          some (TEMPFILE_PREFIX_STR ++ suffix sys.tempCounter), sys')
      ∧ sys'.tempCounter = sys.tempCounter + 1)
  ∧ (∀ p : String, p ∈ sys.fs →
      ∃ sys', create_artifacts_dir suffix (some p) sys =
          Except.ok (p ++ "/artifacts", some p, sys')
        ∧ sys'.tempCounter = sys.tempCounter)
  ∧ (∀ p : String, p ∉ sys.fs → p ++ "/artifacts" ∉ sys.fs →
      create_artifacts_dir suffix (some p) sys =
        Except.error "FileNotFoundError") := by
  refine ⟨?_, ?_, ?_, ?_⟩
  · intro wd r hok
    rcases wd with _ | q
    · simp only [create_artifacts_dir, create_work_dir, mkdtemp] at hok
      by_cases hmem : TEMPFILE_PREFIX_STR ++ suffix sys.tempCounter ++ "/artifacts" ∈
          (TEMPFILE_PREFIX_STR ++ suffix sys.tempCounter) :: sys.fs
      · rw [if_pos hmem] at hok
        injection hok with h
        subst h
        exact ⟨fun hc => Option.noConfusion hc, rfl⟩
      · rw [if_neg hmem, if_pos (List.mem_cons_self _ _)] at hok
        injection hok with h
        subst h
        exact ⟨fun hc => Option.noConfusion hc, rfl⟩
    · simp only [create_artifacts_dir] at hok
      by_cases h1 : q ++ "/artifacts" ∈ sys.fs
      · rw [if_pos h1] at hok
        injection hok with h
        subst h
        exact ⟨fun hc => Option.noConfusion hc, rfl⟩
      · rw [if_neg h1] at hok
        by_cases h2 : q ∈ sys.fs
        · rw [if_pos h2] at hok
          injection hok with h
          subst h
          exact ⟨fun hc => Option.noConfusion hc, rfl⟩
        · rw [if_neg h2] at hok
          exact absurd hok (fun hc => Except.noConfusion hc)
  · simp only [create_artifacts_dir, create_work_dir, mkdtemp]
    by_cases hmem : TEMPFILE_PREFIX_STR ++ suffix sys.tempCounter ++ "/artifacts" ∈
        (TEMPFILE_PREFIX_STR ++ suffix sys.tempCounter) :: sys.fs
    · rw [if_pos hmem]
      exact ⟨_, rfl, rfl⟩
    · rw [if_neg hmem, if_pos (List.mem_cons_self _ _)]
      exact ⟨_, rfl, rfl⟩
  · intro p hp
    simp only [create_artifacts_dir]
    by_cases h1 : p ++ "/artifacts" ∈ sys.fs
    · rw [if_pos h1]
      exact ⟨_, rfl, rfl⟩
    · rw [if_neg h1, if_pos hp]
      exact ⟨_, rfl, rfl⟩
  · intro p hp hpa
    simp only [create_artifacts_dir]
    rw [if_neg hpa, if_neg hp]

/-- C9 witness: with `w` present on disk the artifacts path nests under
it and no temporary directory is created; with a fresh runner the
working directory is created first. -/
theorem create_artifacts_dir_spec_witness :
    (∃ sys', create_artifacts_dir (fun n => toString n) (some "w")
          { fs := ["w"], tempCounter := 0 } =
        Except.ok ("w" ++ "/artifacts", some "w", sys')
      ∧ sys'.tempCounter = 0)
  ∧ (∃ sys', create_artifacts_dir (fun n => toString n) none
          { fs := [], tempCounter := 0 } =
        Except.ok ((TEMPFILE_PREFIX_STR ++ "0") ++ "/artifacts",
          some (TEMPFILE_PREFIX_STR ++ "0"), sys')
      ∧ sys'.tempCounter = 1) :=
  ⟨(create_artifacts_dir_spec (fun n => toString n)
      { fs := ["w"], tempCounter := 0 }).2.2.1 "w" (by decide),
   (create_artifacts_dir_spec (fun n => toString n)
      { fs := [], tempCounter := 0 }).2.1⟩
